import Mathlib

/-!
Verification of the `agentic-types` wire-encoding layer.

This file is a shallow embedding of the repository's serde-based JSON codec:
each Rust type that the claims touch is translated into a Lean structure or
inductive, and its derived (or hand-written) `Serialize`/`Deserialize`
implementation is translated into an explicit `encode*`/`decode*` function over
a concrete JSON value type.  `BTreeMap<String, &str>` values are modelled as
key-sorted association lists, decoding exactly as serde does: entries are
inserted one by one, later duplicates overwriting earlier ones.  Fallible
decoding returns `Option`.
-/

namespace A2a

/-- JSON values.  Numbers are modelled as unbounded integers; the integer-width
checks that `serde_json` performs for `i16`/`i32`/`i64` fields are made
explicit in the decoding helpers below. -/
inductive Json where
  | null
  | bool (b : Bool)
  | num (n : Int)
  | str (s : String)
  | arr (elems : List Json)
  | obj (fields : List (String × Json))

namespace Json

/-- Key lookup in a serialized object's field list (first match wins; the
encoders below never produce duplicate keys). -/
def lookupKV : List (String × Json) → String → Option Json
  | [], _ => none
  | (k0, v) :: rest, k => if k = k0 then some v else lookupKV rest k

/-- Drop every entry with the given key (used to model a serde field that has
already been consumed, e.g. an internally-tagged enum's tag field). -/
def removeKey : List (String × Json) → String → List (String × Json)
  | [], _ => []
  | (k0, v) :: rest, k =>
    if k0 = k then removeKey rest k else (k0, v) :: removeKey rest k

end Json

open Json

/-- Encoded form of an optional struct field carrying
`#[serde(skip_serializing_if = "Option::is_none")]`: the key is omitted
entirely when the value is absent. -/
def optField (k : String) (enc : α → Json) : Option α → List (String × Json)
  | none => []
  | some v => [(k, enc v)]

/-- Encoded form of an optional struct field *without* a skip attribute:
serde serializes `None` as an explicit JSON `null`. -/
def nullableField (k : String) (enc : α → Json) (o : Option α) :
    List (String × Json) :=
  [(k, o.elim Json.null enc)]

/-- Decoding a required struct field: a missing key is a hard error. -/
def getReq (kvs : List (String × Json)) (k : String) (dec : Json → Option α) :
    Option α :=
  (lookupKV kvs k).bind dec

/-- Recognizer for the JSON null value. -/
def isNull : Json → Bool
  | .null => true
  | _ => false

/-- Decoding an `Option<T>` struct field: serde treats a missing key as `None`
(`Option` fields have an implicit default) and a JSON `null` as `None`; any
other value must deserialize as `T`. -/
def getOpt (kvs : List (String × Json)) (k : String) (dec : Json → Option α) :
    Option (Option α) :=
  match lookupKV kvs k with
  | none => some none
  | some v => if isNull v then some none else (dec v).map some

/-- Model of `&str` fields deserialize only from JSON strings. -/
def decodeStr : Json → Option String
  | .str s => some s
  | _ => none

/-- Model of `bool` fields deserialize only from JSON booleans. -/
def decodeBool : Json → Option Bool
  | .bool b => some b
  | _ => none

/-- An `i64` field accepts integral JSON numbers in `[-2^63, 2^63)`. -/
def decodeI64 : Json → Option Int
  | .num n =>
    if -9223372036854775808 ≤ n ∧ n < 9223372036854775808 then some n else none
  | _ => none

/-- An `i32` field accepts integral JSON numbers in `[-2^31, 2^31)`. -/
def decodeI32 : Json → Option Int
  | .num n => if -2147483648 ≤ n ∧ n < 2147483648 then some n else none
  | _ => none

/-- An `i16` field accepts integral JSON numbers in `[-2^15, 2^15)`. -/
def decodeI16 : Json → Option Int
  | .num n => if -32768 ≤ n ∧ n < 32768 then some n else none
  | _ => none

/-- Element-by-element sequence deserialization. -/
def decodeElems (dec : Json → Option α) : List Json → Option (List α)
  | [] => some []
  | x :: xs => do
    let a ← dec x
    let rest ← decodeElems dec xs
    pure (a :: rest)

/-- Deserializing a `Vec<T>`: a JSON array whose every element deserializes. -/
def decodeList (dec : Json → Option α) : Json → Option (List α)
  | .arr xs => decodeElems dec xs
  | _ => none

/-- Lexicographic strict order on character lists. -/
def charsLt : List Char → List Char → Bool
  | [], [] => false
  | [], _ :: _ => true
  | _ :: _, [] => false
  | a :: as, b :: bs =>
    if a < b then true else if a = b then charsLt as bs else false

/-- Rust's `BTreeMap<String, _>` key order: byte-wise lexicographic over the
UTF-8 encoding, which coincides with codepoint-lexicographic order. -/
def strLt (a b : String) : Bool := charsLt a.data b.data

/-- Insertion into a key-sorted association list, the model of
`BTreeMap::insert`: an existing binding for the same key is overwritten. -/
def btreeInsert (k : String) (v : String) :
    List (String × String) → List (String × String)
  | [] => [(k, v)]
  | (k0, v0) :: rest =>
    if strLt k k0 then (k, v) :: (k0, v0) :: rest
    else if k = k0 then (k, v) :: rest
    else (k0, v0) :: btreeInsert k v rest

/-- serde's map deserialization: visit the object's entries in order,
inserting each into the tree (later duplicates overwrite). Every value must
deserialize as `&str`, since the maps here are `BTreeMap<String, &'a str>`. -/
def strMapFromEntries : List (String × Json) → List (String × String) →
    Option (List (String × String))
  | [], acc => some acc
  | (k, v) :: rest, acc =>
    match v with
    | .str s => strMapFromEntries rest (btreeInsert k s acc)
    | _ => none

/-- Deserializing `BTreeMap<String, &str>` (`JsonStrMemKV` / `OpenIdExtension`
/ the `DataPart` map). -/
def decodeStrMap : Json → Option (List (String × String))
  | .obj kvs => strMapFromEntries kvs []
  | _ => none

/-- Serializing `BTreeMap<String, &str>`: entries in (already sorted) key
order. -/
def encodeStrMap (m : List (String × String)) : Json :=
  .obj (m.map (fun p => (p.1, Json.str p.2)))

/-- The well-formedness invariant every Rust `BTreeMap` value satisfies by
construction: keys strictly ascending. -/
def SortedKeys (m : List (String × String)) : Prop :=
  m.Pairwise (fun a b => strLt a.1 b.1 = true)

instance (m : List (String × String)) : Decidable (SortedKeys m) :=
  inferInstanceAs (Decidable (List.Pairwise _ m))

/-- Model of `TransportProtocol` from `agent_card/transport.rs`. -/
inductive TransportProtocol where
  | JsonRpc
  | Grpc
  | HttpJson
deriving DecidableEq

namespace TransportProtocol

/-- Model of `TransportProtocol::as_str`. -/
def asStr : TransportProtocol → String
  | .JsonRpc => "JSONRPC"
  | .Grpc => "GRPC"
  | .HttpJson => "HTTP+JSON"

/-- Model of `impl From<&str> for TransportProtocol`: guards tried in source order,
with a catch-all arm yielding `JsonRpc`. -/
def fromStr (value : String) : TransportProtocol :=
  if value = TransportProtocol.Grpc.asStr then .Grpc
  else if value = TransportProtocol.HttpJson.asStr then .HttpJson
  else if value = TransportProtocol.JsonRpc.asStr then .JsonRpc
  else .JsonRpc

end TransportProtocol

/-- Model of `TaskState` from `protocol_data/task_state.rs`. -/
inductive TaskState where
  | Submitted
  | Working
  | InputRequired
  | Completed
  | Canceled
  | Failed
  | Rejected
  | AuthRequired
  | Unknown
deriving DecidableEq

namespace TaskState

/-- The derived `Serialize` under `#[serde(rename_all = "kebab-case")]`. -/
def toWire : TaskState → String
  | .Submitted => "submitted"
  | .Working => "working"
  | .InputRequired => "input-required"
  | .Completed => "completed"
  | .Canceled => "canceled"
  | .Failed => "failed"
  | .Rejected => "rejected"
  | .AuthRequired => "auth-required"
  | .Unknown => "unknown"

/-- The derived `Deserialize`: only the nine kebab-case tokens are accepted;
any other token is an unknown-variant error (there is no `#[serde(other)]`
attribute in the source). -/
def fromWire (s : String) : Option TaskState :=
  if s = "submitted" then some .Submitted
  else if s = "working" then some .Working
  else if s = "input-required" then some .InputRequired
  else if s = "completed" then some .Completed
  else if s = "canceled" then some .Canceled
  else if s = "failed" then some .Failed
  else if s = "rejected" then some .Rejected
  else if s = "auth-required" then some .AuthRequired
  else if s = "unknown" then some .Unknown
  else none

end TaskState

/-- Model of `MessageRole` from `protocol_data/message.rs`. -/
inductive MessageRole where
  | User
  | Agent
deriving DecidableEq

namespace MessageRole

/-- The derived `Serialize` with per-variant `#[serde(rename)]` attributes. -/
def toWire : MessageRole → String
  | .User => "user"
  | .Agent => "agent"

/-- The derived `Deserialize`: any token other than the two renames is an
unknown-variant error. -/
def fromWire (s : String) : Option MessageRole :=
  if s = "user" then some .User
  else if s = "agent" then some .Agent
  else none

end MessageRole

namespace Errors

/-- The error-kind enumeration `JsonRpcError` from `errors.rs`. -/
inductive JsonRpcError where
  | ParseError
  | InvalidRequest
  | MethodNotFound
  | InvalidParams
  | InternalError
  | TaskNotFoundError
  | TaskNotCancelableError
  | PushNotificationNotSupportedError
  | UnsupportedOperationError
  | ContentTypeNotSupportedError
  | InvalidAgentResponseError
  | AuthenticatedExtendedCardNotConfiguredError
  | UnknownErrorEncountered
deriving DecidableEq

namespace JsonRpcError

/-- Model of `JsonRpcError::error_code`. -/
def error_code : JsonRpcError → Int
  | .ParseError => -32700
  | .InvalidRequest => -32600
  | .MethodNotFound => -32601
  | .InvalidParams => -32602
  | .InternalError => -32603
  | .TaskNotFoundError => -32001
  | .TaskNotCancelableError => -32002
  | .PushNotificationNotSupportedError => -32003
  | .UnsupportedOperationError => -32004
  | .ContentTypeNotSupportedError => -32005
  | .InvalidAgentResponseError => -32006
  | .AuthenticatedExtendedCardNotConfiguredError => -32007
  | .UnknownErrorEncountered => -32000

/-- Model of `impl From<i64> for JsonRpcError`: guards compared against each kind's
code in source order, with a catch-all yielding `UnknownErrorEncountered`. -/
def fromI64 (value : Int) : JsonRpcError :=
  if value = JsonRpcError.ParseError.error_code then .ParseError
  else if value = JsonRpcError.InvalidRequest.error_code then .InvalidRequest
  else if value = JsonRpcError.MethodNotFound.error_code then .MethodNotFound
  else if value = JsonRpcError.InvalidParams.error_code then .InvalidParams
  else if value = JsonRpcError.InternalError.error_code then .InternalError
  else if value = JsonRpcError.TaskNotFoundError.error_code then
    .TaskNotFoundError
  else if value = JsonRpcError.TaskNotCancelableError.error_code then
    .TaskNotCancelableError
  else if value = JsonRpcError.PushNotificationNotSupportedError.error_code then
    .PushNotificationNotSupportedError
  else if value = JsonRpcError.UnsupportedOperationError.error_code then
    .UnsupportedOperationError
  else if value = JsonRpcError.ContentTypeNotSupportedError.error_code then
    .ContentTypeNotSupportedError
  else if value = JsonRpcError.InvalidAgentResponseError.error_code then
    .InvalidAgentResponseError
  else if value =
      JsonRpcError.AuthenticatedExtendedCardNotConfiguredError.error_code then
    .AuthenticatedExtendedCardNotConfiguredError
  else .UnknownErrorEncountered

/-- Model of `JsonRpcError::foo`, the transitional synonym for `From<i64>::from`. -/
def foo (value : Int) : JsonRpcError := fromI64 value

end JsonRpcError

end Errors


/-- Drop every entry whose key occurs in `ks` (the named fields already
consumed before a `#[serde(flatten)]` map collects the remainder). -/
def removeKeys : List (String × Json) → List String → List (String × Json)
  | [], _ => []
  | (k0, v) :: rest, ks =>
    if k0 ∈ ks then removeKeys rest ks else (k0, v) :: removeKeys rest ks

/-- Model of `PartBase` from `protocol_data/message.rs`: the flattened base of every
`Part` variant, a single skip-if-none `metadata` map. -/
structure PartBase where
  metadata : Option (List (String × String))
deriving DecidableEq

def encodePartBaseKV (b : PartBase) : List (String × Json) :=
  optField "metadata" encodeStrMap b.metadata

def decodePartBase (kvs : List (String × Json)) : Option PartBase := do
  let metadata ← getOpt kvs "metadata" decodeStrMap
  pure ⟨metadata⟩

/-- Model of `TextPart`: flattened base plus a required `text` field. -/
structure TextPart where
  base : PartBase
  text : String
deriving DecidableEq

def encodeTextPartKV (p : TextPart) : List (String × Json) :=
  encodePartBaseKV p.base ++ [("text", Json.str p.text)]

def decodeTextPart (kvs : List (String × Json)) : Option TextPart := do
  let base ← decodePartBase kvs
  let text ← getReq kvs "text" decodeStr
  pure ⟨base, text⟩

/-- Model of `FileBase`: optional `name` and `mime_type` (no `rename_all` attribute on
this struct, so the wire key stays `mime_type`). -/
structure FileBase where
  name : Option String
  mime_type : Option String
deriving DecidableEq

def encodeFileBaseKV (b : FileBase) : List (String × Json) :=
  optField "name" Json.str b.name ++ optField "mime_type" Json.str b.mime_type

def decodeFileBase (kvs : List (String × Json)) : Option FileBase := do
  let name ← getOpt kvs "name" decodeStr
  let mime_type ← getOpt kvs "mime_type" decodeStr
  pure ⟨name, mime_type⟩

/-- Model of `FileWithBytes`: flattened base plus a required `bytes` field. -/
structure FileWithBytes where
  base : FileBase
  bytes : String
deriving DecidableEq

def encodeFileWithBytesKV (f : FileWithBytes) : List (String × Json) :=
  encodeFileBaseKV f.base ++ [("bytes", Json.str f.bytes)]

def decodeFileWithBytes (kvs : List (String × Json)) : Option FileWithBytes := do
  let base ← decodeFileBase kvs
  let bytes ← getReq kvs "bytes" decodeStr
  pure ⟨base, bytes⟩

/-- Model of `FileWithUri`: flattened base plus a required `uri` field. -/
structure FileWithUri where
  base : FileBase
  uri : String
deriving DecidableEq

def encodeFileWithUriKV (f : FileWithUri) : List (String × Json) :=
  encodeFileBaseKV f.base ++ [("uri", Json.str f.uri)]

def decodeFileWithUri (kvs : List (String × Json)) : Option FileWithUri := do
  let base ← decodeFileBase kvs
  let uri ← getReq kvs "uri" decodeStr
  pure ⟨base, uri⟩

/-- Model of `FileWith`, the `#[serde(untagged)]` two-way union. -/
inductive FileWith where
  | Bytes (f : FileWithBytes)
  | Uri (f : FileWithUri)
deriving DecidableEq

def encodeFileWith : FileWith → Json
  | .Bytes f => .obj (encodeFileWithBytesKV f)
  | .Uri f => .obj (encodeFileWithUriKV f)

/-- Untagged deserialization: serde tries the variants in declared order
(`Bytes` first, then `Uri`), committing to the first that fully succeeds. -/
def decodeFileWith : Json → Option FileWith
  | .obj kvs =>
    match decodeFileWithBytes kvs with
    | some f => some (.Bytes f)
    | none => (decodeFileWithUri kvs).map .Uri
  | _ => none

/-- Model of `FilePart`: flattened base plus the nested `file` union. -/
structure FilePart where
  base : PartBase
  file : FileWith
deriving DecidableEq

def encodeFilePartKV (p : FilePart) : List (String × Json) :=
  encodePartBaseKV p.base ++ [("file", encodeFileWith p.file)]

def decodeFilePart (kvs : List (String × Json)) : Option FilePart := do
  let base ← decodePartBase kvs
  let file ← getReq kvs "file" decodeFileWith
  pure ⟨base, file⟩

/-- Model of `DataPart`: flattened base plus the required `data` map. -/
structure DataPart where
  base : PartBase
  data : List (String × String)
deriving DecidableEq

def encodeDataPartKV (p : DataPart) : List (String × Json) :=
  encodePartBaseKV p.base ++ [("data", encodeStrMap p.data)]

def decodeDataPart (kvs : List (String × Json)) : Option DataPart := do
  let base ← decodePartBase kvs
  let data ← getReq kvs "data" decodeStrMap
  pure ⟨base, data⟩

/-- Model of `Part`, the `#[serde(tag = "kind")]` three-way union with explicit
variant renames `text` / `file` / `data`. -/
inductive Part where
  | Text (p : TextPart)
  | File (p : FilePart)
  | Data (p : DataPart)
deriving DecidableEq

/-- Internally-tagged serialization: the tag field first, then the variant's
own fields. -/
def encodePart : Part → Json
  | .Text p => .obj (("kind", Json.str "text") :: encodeTextPartKV p)
  | .File p => .obj (("kind", Json.str "file") :: encodeFilePartKV p)
  | .Data p => .obj (("kind", Json.str "data") :: encodeDataPartKV p)

/-- Internally-tagged deserialization: extract the tag, then deserialize the
selected variant from the remaining fields; an unknown tag is a hard error. -/
def decodePart : Json → Option Part
  | .obj kvs => do
    let tag ← getReq kvs "kind" decodeStr
    let rest := removeKey kvs "kind"
    if tag = "text" then (decodeTextPart rest).map .Text
    else if tag = "file" then (decodeFilePart rest).map .File
    else if tag = "data" then (decodeDataPart rest).map .Data
    else none
  | _ => none

/-- Model of `Message` from `protocol_data/message.rs`
(`#[serde(rename_all = "camelCase")]`). -/
structure Message where
  role : MessageRole
  parts : List Part
  metadata : Option (List (String × String))
  extensions : Option (List String)
  reference_task_ids : Option (List String)
  message_id : String
  task_id : Option String
  context_id : Option String
  kind : String
deriving DecidableEq

/-- Model of `Message::new`: all fields defaulted except `kind = "message"`. -/
def Message.new : Message :=
  ⟨.User, [], none, none, none, "", none, none, "message"⟩

def encodeMessage (m : Message) : Json :=
  .obj ([("role", Json.str m.role.toWire),
        ("parts", Json.arr (m.parts.map encodePart))]
    ++ optField "metadata" encodeStrMap m.metadata
    ++ optField "extensions" (fun l => Json.arr (l.map Json.str)) m.extensions
    ++ optField "referenceTaskIds" (fun l => Json.arr (l.map Json.str))
        m.reference_task_ids
    ++ [("messageId", Json.str m.message_id)]
    ++ optField "taskId" Json.str m.task_id
    ++ optField "contextId" Json.str m.context_id
    ++ [("kind", Json.str m.kind)])

def decodeMessage : Json → Option Message
  | .obj kvs => do
    let role ← getReq kvs "role" (fun v => (decodeStr v).bind MessageRole.fromWire)
    let parts ← getReq kvs "parts" (decodeList decodePart)
    let metadata ← getOpt kvs "metadata" decodeStrMap
    let extensions ← getOpt kvs "extensions" (decodeList decodeStr)
    let reference_task_ids ← getOpt kvs "referenceTaskIds" (decodeList decodeStr)
    let message_id ← getReq kvs "messageId" decodeStr
    let task_id ← getOpt kvs "taskId" decodeStr
    let context_id ← getOpt kvs "contextId" decodeStr
    let kind ← getReq kvs "kind" decodeStr
    pure ⟨role, parts, metadata, extensions, reference_task_ids, message_id,
      task_id, context_id, kind⟩
  | _ => none

namespace Jsonrpc

/-- Model of `JsonRpcId` from `jsonrpc.rs`, an untagged string / number / null union. -/
inductive JsonRpcId where
  | String (s : String)
  | Number (n : Int)
  | Null
deriving DecidableEq

def encodeJsonRpcId : JsonRpcId → Json
  | .String s => .str s
  | .Number n => .num n
  | .Null => .null

/-- Untagged deserialization of `JsonRpcId`: a JSON string, an `i64` number,
or null. -/
def decodeJsonRpcId : Json → Option JsonRpcId
  | .str s => some (.String s)
  | .num n => (decodeI64 (.num n)).map .Number
  | .null => some .Null
  | _ => none

/-- The wire-error record `JsonRpcError` from `jsonrpc.rs` (distinct from the
error-kind enumeration in `errors.rs`).  Its `code` field is declared `i32`
in the source. -/
structure JsonRpcError where
  code : Int
  message : String
  data : Option String
deriving DecidableEq

def encodeJsonRpcError (e : JsonRpcError) : Json :=
  .obj ([("code", Json.num e.code), ("message", Json.str e.message)]
    ++ optField "data" Json.str e.data)

def decodeJsonRpcError : Json → Option JsonRpcError
  | .obj kvs => do
    let code ← getReq kvs "code" decodeI32
    let message ← getReq kvs "message" decodeStr
    let data ← getOpt kvs "data" decodeStr
    pure ⟨code, message, data⟩
  | _ => none

/-- Model of `JsonRpcPayload`, the untagged success / error union. -/
inductive JsonRpcPayload (τ : Type) where
  | Success (result : τ)
  | Error (error : JsonRpcError)
deriving DecidableEq

/-- The payload is `#[serde(flatten)]`ed into the response, so its encoded
form is a list of fields spliced into the enclosing object. -/
def encodeJsonRpcPayloadKV (encT : τ → Json) :
    JsonRpcPayload τ → List (String × Json)
  | .Success t => [("result", encT t)]
  | .Error e => [("error", encodeJsonRpcError e)]

/-- Untagged deserialization in declared order: `Success` (requires a
`result` field whose value deserializes as `T`) is tried before `Error`. -/
def decodeJsonRpcPayloadKV (decT : Json → Option τ)
    (kvs : List (String × Json)) : Option (JsonRpcPayload τ) :=
  match (lookupKV kvs "result").bind decT with
  | some t => some (.Success t)
  | none => ((lookupKV kvs "error").bind decodeJsonRpcError).map .Error

/-- Model of `JsonRpcResponse` from `jsonrpc.rs`: the `id` field carries
`#[serde(skip_serializing_if = "Option::is_none")]` and the payload is
flattened. -/
structure JsonRpcResponse (τ : Type) where
  jsonrpc : String
  id : Option JsonRpcId
  payload : JsonRpcPayload τ
deriving DecidableEq

def encodeJsonRpcResponse (encT : τ → Json) (r : JsonRpcResponse τ) : Json :=
  .obj ([("jsonrpc", Json.str r.jsonrpc)]
    ++ optField "id" encodeJsonRpcId r.id
    ++ encodeJsonRpcPayloadKV encT r.payload)

def decodeJsonRpcResponse (decT : Json → Option τ) :
    Json → Option (JsonRpcResponse τ)
  | .obj kvs => do
    let jsonrpc ← getReq kvs "jsonrpc" decodeStr
    let id ← getOpt kvs "id" decodeJsonRpcId
    let payload ← decodeJsonRpcPayloadKV decT
      (removeKey (removeKey kvs "jsonrpc") "id")
    pure ⟨jsonrpc, id, payload⟩
  | _ => none

/-- Model of `JsonRpcRequest` from `jsonrpc.rs`: note that neither `params` nor `id`
carries a skip attribute, so serde serializes `None` as an explicit null. -/
structure JsonRpcRequest where
  jsonrpc : String
  method : String
  params : Option String
  id : Option JsonRpcId
deriving DecidableEq

def encodeJsonRpcRequest (r : JsonRpcRequest) : Json :=
  .obj ([("jsonrpc", Json.str r.jsonrpc), ("method", Json.str r.method)]
    ++ nullableField "params" Json.str r.params
    ++ nullableField "id" encodeJsonRpcId r.id)

def decodeJsonRpcRequest : Json → Option JsonRpcRequest
  | .obj kvs => do
    let jsonrpc ← getReq kvs "jsonrpc" decodeStr
    let method ← getReq kvs "method" decodeStr
    let params ← getOpt kvs "params" decodeStr
    let id ← getOpt kvs "id" decodeJsonRpcId
    pure ⟨jsonrpc, method, params, id⟩
  | _ => none

/-- Model of `PushNotificationAuthenticationInfo` from
`protocol_data/push_notification.rs`. -/
structure PushNotificationAuthenticationInfo where
  schemes : List String
  credentials : Option String
deriving DecidableEq

def encodePushNotificationAuthenticationInfo
    (a : PushNotificationAuthenticationInfo) : Json :=
  .obj ([("schemes", Json.arr (a.schemes.map Json.str))]
    ++ optField "credentials" Json.str a.credentials)

def decodePushNotificationAuthenticationInfo :
    Json → Option PushNotificationAuthenticationInfo
  | .obj kvs => do
    let schemes ← getReq kvs "schemes" (decodeList decodeStr)
    let credentials ← getOpt kvs "credentials" decodeStr
    pure ⟨schemes, credentials⟩
  | _ => none

/-- Model of `PushNotificationConfig` from `protocol_data/push_notification.rs`. -/
structure PushNotificationConfig where
  id : Option String
  url : String
  token : Option String
  authentication : Option PushNotificationAuthenticationInfo
deriving DecidableEq

def encodePushNotificationConfig (c : PushNotificationConfig) : Json :=
  .obj (optField "id" Json.str c.id
    ++ [("url", Json.str c.url)]
    ++ optField "token" Json.str c.token
    ++ optField "authentication" encodePushNotificationAuthenticationInfo
        c.authentication)

def decodePushNotificationConfig : Json → Option PushNotificationConfig
  | .obj kvs => do
    let id ← getOpt kvs "id" decodeStr
    let url ← getReq kvs "url" decodeStr
    let token ← getOpt kvs "token" decodeStr
    let authentication ← getOpt kvs "authentication"
      decodePushNotificationAuthenticationInfo
    pure ⟨id, url, token, authentication⟩
  | _ => none

/-- Model of `MessageSendConfiguration` from `jsonrpc.rs`.  The struct carries
`#[serde(rename = "camelCase")]` — a struct *rename*, not `rename_all` — so
its field keys keep their snake_case spelling, and none of its `Option`
fields has a skip attribute. -/
structure MessageSendConfiguration where
  accepted_output_modes : Option String
  history_length : Option Int
  push_notification_config : Option PushNotificationConfig
  blocking : Option Bool
deriving DecidableEq

def encodeMessageSendConfiguration (c : MessageSendConfiguration) : Json :=
  .obj (nullableField "accepted_output_modes" Json.str c.accepted_output_modes
    ++ nullableField "history_length" Json.num c.history_length
    ++ nullableField "push_notification_config" encodePushNotificationConfig
        c.push_notification_config
    ++ nullableField "blocking" Json.bool c.blocking)

def decodeMessageSendConfiguration : Json → Option MessageSendConfiguration
  | .obj kvs => do
    let accepted_output_modes ← getOpt kvs "accepted_output_modes" decodeStr
    let history_length ← getOpt kvs "history_length" decodeI16
    let push_notification_config ← getOpt kvs "push_notification_config"
      decodePushNotificationConfig
    let blocking ← getOpt kvs "blocking" decodeBool
    pure ⟨accepted_output_modes, history_length, push_notification_config,
      blocking⟩
  | _ => none

/-- Model of `MessageSendParams` from `jsonrpc.rs`: `configuration` and `metadata` are
`Option` fields with no skip attribute. -/
structure MessageSendParams where
  message : Message
  configuration : Option MessageSendConfiguration
  metadata : Option (List (String × String))
deriving DecidableEq

def encodeMessageSendParams (p : MessageSendParams) : Json :=
  .obj ([("message", encodeMessage p.message)]
    ++ nullableField "configuration" encodeMessageSendConfiguration
        p.configuration
    ++ nullableField "metadata" encodeStrMap p.metadata)

def decodeMessageSendParams : Json → Option MessageSendParams
  | .obj kvs => do
    let message ← getReq kvs "message" decodeMessage
    let configuration ← getOpt kvs "configuration"
      decodeMessageSendConfiguration
    let metadata ← getOpt kvs "metadata" decodeStrMap
    pure ⟨message, configuration, metadata⟩
  | _ => none

/-- Model of `ListTasksResult` from `jsonrpc.rs`
(`#[serde(rename_all = "camelCase")]`), parametric in the `Task` element
type, whose definition lives in a module that only re-exports it here.  All
four fields are required: in particular `next_page_token` is a plain `&str`,
not an `Option`. -/
structure ListTasksResult (τ : Type) where
  tasks : List τ
  total_size : Int
  page_size : Int
  next_page_token : String
deriving DecidableEq

def encodeListTasksResult (encTask : τ → Json) (r : ListTasksResult τ) :
    Json :=
  .obj [("tasks", Json.arr (r.tasks.map encTask)),
    ("totalSize", Json.num r.total_size),
    ("pageSize", Json.num r.page_size),
    ("nextPageToken", Json.str r.next_page_token)]

end Jsonrpc

/-- Model of `OAuthFlow` from `agent_card/security_scheme.rs`
(`#[serde(rename_all = "camelCase")]`, every field optional with a skip
attribute). -/
structure OAuthFlow where
  authorization_url : Option String
  token_url : Option String
  refresh_url : Option String
  scopes : Option (List (String × String))
deriving DecidableEq

def encodeOAuthFlow (f : OAuthFlow) : Json :=
  .obj (optField "authorizationUrl" Json.str f.authorization_url
    ++ optField "tokenUrl" Json.str f.token_url
    ++ optField "refreshUrl" Json.str f.refresh_url
    ++ optField "scopes" encodeStrMap f.scopes)

def decodeOAuthFlow : Json → Option OAuthFlow
  | .obj kvs => do
    let authorization_url ← getOpt kvs "authorizationUrl" decodeStr
    let token_url ← getOpt kvs "tokenUrl" decodeStr
    let refresh_url ← getOpt kvs "refreshUrl" decodeStr
    let scopes ← getOpt kvs "scopes" decodeStrMap
    pure ⟨authorization_url, token_url, refresh_url, scopes⟩
  | _ => none

/-- Model of `OAuthFlows` from `agent_card/security_scheme.rs`. -/
structure OAuthFlows where
  implicit : Option OAuthFlow
  password : Option OAuthFlow
  client_credentials : Option OAuthFlow
  authorization_code : Option OAuthFlow
  device_code : Option OAuthFlow
deriving DecidableEq

def OAuthFlows.default : OAuthFlows := ⟨none, none, none, none, none⟩

def encodeOAuthFlows (f : OAuthFlows) : Json :=
  .obj (optField "implicit" encodeOAuthFlow f.implicit
    ++ optField "password" encodeOAuthFlow f.password
    ++ optField "clientCredentials" encodeOAuthFlow f.client_credentials
    ++ optField "authorizationCode" encodeOAuthFlow f.authorization_code
    ++ optField "deviceCode" encodeOAuthFlow f.device_code)

def decodeOAuthFlows : Json → Option OAuthFlows
  | .obj kvs => do
    let implicit ← getOpt kvs "implicit" decodeOAuthFlow
    let password ← getOpt kvs "password" decodeOAuthFlow
    let client_credentials ← getOpt kvs "clientCredentials" decodeOAuthFlow
    let authorization_code ← getOpt kvs "authorizationCode" decodeOAuthFlow
    let device_code ← getOpt kvs "deviceCode" decodeOAuthFlow
    pure ⟨implicit, password, client_credentials, authorization_code,
      device_code⟩
  | _ => none

/-- Model of `SecurityScheme` from `agent_card/security_scheme.rs`, the
`#[serde(tag = "type", rename_all = "camelCase")]` five-way union.  Each
variant ends with an `#[serde(flatten)]`ed `OpenIdExtension` map collecting
every key not consumed by the variant's named fields. -/
inductive SecurityScheme where
  | ApiKey (name : String) (location : String) (description : Option String)
      (extensions : List (String × String))
  | Http (scheme : String) (bearer_format : Option String)
      (description : Option String) (extensions : List (String × String))
  | MutualTLS (description : Option String)
      (extensions : List (String × String))
  | OAuth2 (flows : OAuthFlows) (oauth2_metadata_url : Option String)
      (description : Option String) (extensions : List (String × String))
  | OpenIdConnect (open_id_connect_url : String)
      (description : Option String) (extensions : List (String × String))
deriving DecidableEq

/-- The flattened extension map's encoded fields. -/
def extensionsKV (ext : List (String × String)) : List (String × Json) :=
  ext.map (fun p => (p.1, Json.str p.2))

/-- Internally-tagged serialization of `SecurityScheme`.  The discriminator
strings come from serde's `camelCase` rename rule applied to the variant
names, which lowercases only the first character: `ApiKey ↦ apiKey`,
`Http ↦ http`, `MutualTLS ↦ mutualTLS`, `OAuth2 ↦ oAuth2`,
`OpenIdConnect ↦ openIdConnect`. -/
def encodeSecurityScheme : SecurityScheme → Json
  | .ApiKey name location description ext =>
    .obj (("type", Json.str "apiKey") :: ("name", Json.str name)
      :: ("in", Json.str location)
      :: (optField "description" Json.str description ++ extensionsKV ext))
  | .Http scheme bearer_format description ext =>
    .obj (("type", Json.str "http") :: ("scheme", Json.str scheme)
      :: (optField "bearerFormat" Json.str bearer_format
        ++ optField "description" Json.str description ++ extensionsKV ext))
  | .MutualTLS description ext =>
    .obj (("type", Json.str "mutualTLS")
      :: (optField "description" Json.str description ++ extensionsKV ext))
  | .OAuth2 flows oauth2_metadata_url description ext =>
    .obj (("type", Json.str "oAuth2") :: ("flows", encodeOAuthFlows flows)
      :: (optField "oauth2MetadataUrl" Json.str oauth2_metadata_url
        ++ optField "description" Json.str description ++ extensionsKV ext))
  | .OpenIdConnect open_id_connect_url description ext =>
    .obj (("type", Json.str "openIdConnect")
      :: ("openIdConnectUrl", Json.str open_id_connect_url)
      :: (optField "description" Json.str description ++ extensionsKV ext))

/-- Internally-tagged deserialization of `SecurityScheme`: extract the
`type` tag, deserialize the matching variant's named fields, then collect the
remaining keys into the flattened extension map; an unknown tag is a hard
error. -/
def decodeSecurityScheme : Json → Option SecurityScheme
  | .obj kvs => do
    let tag ← getReq kvs "type" decodeStr
    let rest := removeKey kvs "type"
    if tag = "apiKey" then do
      let name ← getReq rest "name" decodeStr
      let location ← getReq rest "in" decodeStr
      let description ← getOpt rest "description" decodeStr
      let ext ← strMapFromEntries
        (removeKeys rest ["name", "in", "description"]) []
      pure (.ApiKey name location description ext)
    else if tag = "http" then do
      let scheme ← getReq rest "scheme" decodeStr
      let bearer_format ← getOpt rest "bearerFormat" decodeStr
      let description ← getOpt rest "description" decodeStr
      let ext ← strMapFromEntries
        (removeKeys rest ["scheme", "bearerFormat", "description"]) []
      pure (.Http scheme bearer_format description ext)
    else if tag = "mutualTLS" then do
      let description ← getOpt rest "description" decodeStr
      let ext ← strMapFromEntries (removeKeys rest ["description"]) []
      pure (.MutualTLS description ext)
    else if tag = "oAuth2" then do
      let flows ← getReq rest "flows" decodeOAuthFlows
      let oauth2_metadata_url ← getOpt rest "oauth2MetadataUrl" decodeStr
      let description ← getOpt rest "description" decodeStr
      let ext ← strMapFromEntries
        (removeKeys rest ["flows", "oauth2MetadataUrl", "description"]) []
      pure (.OAuth2 flows oauth2_metadata_url description ext)
    else if tag = "openIdConnect" then do
      let open_id_connect_url ← getReq rest "openIdConnectUrl" decodeStr
      let description ← getOpt rest "description" decodeStr
      let ext ← strMapFromEntries
        (removeKeys rest ["openIdConnectUrl", "description"]) []
      pure (.OpenIdConnect open_id_connect_url description ext)
    else none
  | _ => none

/-- Well-formedness of an optional map field: the Rust `BTreeMap` invariant. -/
def OptSorted : Option (List (String × String)) → Prop
  | none => True
  | some m => SortedKeys m

instance : ∀ o, Decidable (OptSorted o)
  | none => isTrue trivial
  | some m => inferInstanceAs (Decidable (SortedKeys m))

/-- Well-formedness of a `Part`: every contained `BTreeMap` is sorted. -/
def WFPart : Part → Prop
  | .Text p => OptSorted p.base.metadata
  | .File p => OptSorted p.base.metadata
  | .Data p => OptSorted p.base.metadata ∧ SortedKeys p.data

instance : ∀ p, Decidable (WFPart p)
  | .Text p => inferInstanceAs (Decidable (OptSorted p.base.metadata))
  | .File p => inferInstanceAs (Decidable (OptSorted p.base.metadata))
  | .Data _ => inferInstanceAs (Decidable (_ ∧ _))

/-- Well-formedness of a `Message`: every contained `BTreeMap` is sorted.
Every value constructible in the source satisfies this by construction. -/
def WFMessage (m : Message) : Prop :=
  OptSorted m.metadata ∧ ∀ p ∈ m.parts, WFPart p

instance (m : Message) : Decidable (WFMessage m) :=
  inferInstanceAs (Decidable (_ ∧ _))

/-- Constructibility bound for an optional `id`: a Rust `i64` holds values in
`[-2^63, 2^63)`. -/
def WFId : Option Jsonrpc.JsonRpcId → Prop
  | some (.Number n) => -9223372036854775808 ≤ n ∧ n < 9223372036854775808
  | _ => True

instance : ∀ o, Decidable (WFId o)
  | none => isTrue trivial
  | some (.String _) => isTrue trivial
  | some (.Number _) => inferInstanceAs (Decidable (_ ∧ _))
  | some .Null => isTrue trivial

/-- Constructibility bound for a payload: the error record's `code` field is
a Rust `i32`. -/
def WFPayloadCode : Jsonrpc.JsonRpcPayload τ → Prop
  | .Success _ => True
  | .Error e => -2147483648 ≤ e.code ∧ e.code < 2147483648

instance : ∀ p : Jsonrpc.JsonRpcPayload τ, Decidable (WFPayloadCode p)
  | .Success _ => isTrue trivial
  | .Error _ => inferInstanceAs (Decidable (_ ∧ _))

/-- Projection of an encoded object's field list. -/
def Json.fields : Json → List (String × Json)
  | .obj kvs => kvs
  | _ => []

theorem charsLt_irrefl : ∀ as : List Char, charsLt as as = false
  | [] => rfl
  | a :: as => by simp [charsLt, charsLt_irrefl as]

theorem charsLt_asymm :
    ∀ as bs : List Char, charsLt as bs = true → charsLt bs as = false
  | [], [], h => by simp [charsLt] at h
  | [], _ :: _, _ => rfl
  | _ :: _, [], h => by simp [charsLt] at h
  | a :: as, b :: bs, h => by
    simp only [charsLt] at h ⊢
    rcases lt_trichotomy a b with hab | hab | hab
    · rw [if_neg (lt_asymm hab), if_neg (ne_of_gt hab)]
    · subst hab
      rw [if_neg (lt_irrefl a), if_pos rfl] at h ⊢
      exact charsLt_asymm as bs h
    · rw [if_neg (lt_asymm hab), if_neg (ne_of_gt hab)] at h
      exact absurd h (by simp)

theorem strLt_asymm {a b : String} (h : strLt a b = true) :
    strLt b a = false :=
  charsLt_asymm a.data b.data h

theorem strLt_ne {a b : String} (h : strLt a b = true) : a ≠ b := by
  intro he
  subst he
  rw [strLt, charsLt_irrefl] at h
  exact Bool.false_ne_true h

/-- Inserting a key greater than every key of a sorted list appends it. -/
theorem btreeInsert_of_all_lt {k : String} {v : String} :
    ∀ acc : List (String × String), (∀ p ∈ acc, strLt p.1 k = true) →
      btreeInsert k v acc = acc ++ [(k, v)]
  | [], _ => rfl
  | (k0, v0) :: rest, h => by
    have h0 : strLt k0 k = true := h (k0, v0) (by simp)
    rw [btreeInsert, if_neg (by simp [strLt_asymm h0]),
      if_neg (Ne.symm (strLt_ne h0)),
      btreeInsert_of_all_lt rest (fun p hp => h p (by simp [hp]))]
    rfl

/-- Decoding the canonical encoding of a sorted map re-inserts the entries in
ascending key order, reproducing the map. -/
theorem strMapFromEntries_sorted :
    ∀ (l acc : List (String × String)), SortedKeys (acc ++ l) →
      strMapFromEntries (l.map (fun p => (p.1, Json.str p.2))) acc
        = some (acc ++ l)
  | [], acc, _ => by simp [strMapFromEntries]
  | (k, v) :: rest, acc, h => by
    have hsep : ∀ p ∈ acc, strLt p.1 k = true := by
      rw [SortedKeys, List.pairwise_append] at h
      intro p hp
      exact h.2.2 p hp (k, v) (by simp)
    have h' : SortedKeys ((acc ++ [(k, v)]) ++ rest) := by
      simpa using h
    have ih := strMapFromEntries_sorted rest (acc ++ [(k, v)]) h'
    simp only [List.map_cons, strMapFromEntries,
      btreeInsert_of_all_lt acc hsep]
    simpa using ih

theorem decodeStrMap_encodeStrMap {m : List (String × String)}
    (h : SortedKeys m) : decodeStrMap (encodeStrMap m) = some m := by
  simpa [decodeStrMap, encodeStrMap] using
    strMapFromEntries_sorted m [] (by simpa using h)

/-- Element-wise decode/encode inverse lifts to `Vec<T>` fields. -/
theorem decodeElems_map_roundtrip (f : α → Json) (g : Json → Option α) :
    ∀ xs : List α, (∀ x ∈ xs, g (f x) = some x) →
      decodeElems g (xs.map f) = some xs
  | [], _ => rfl
  | x :: xs, h => by
    simp [decodeElems, h x (by simp),
      decodeElems_map_roundtrip f g xs (fun y hy => h y (by simp [hy]))]

theorem decodeStrMap_encode {mm : List (String × String)}
    (hs : SortedKeys mm) :
    strMapFromEntries (mm.map (fun p => (p.1, Json.str p.2))) [] = some mm := by
  simpa using strMapFromEntries_sorted mm [] (by simpa using hs)

theorem fromWire_toWire_role (r : MessageRole) :
    MessageRole.fromWire r.toWire = some r := by
  cases r <;> rfl

theorem fromWire_toWire_state (t : TaskState) :
    TaskState.fromWire t.toWire = some t := by
  cases t <;> rfl

/-- Round-trip for `Part` on well-formed values. -/
theorem decodePart_encodePart : ∀ p : Part, WFPart p →
    decodePart (encodePart p) = some p
  | .Text ⟨⟨md⟩, text⟩, h => by
    cases md with
    | none =>
      simp [encodePart, encodeTextPartKV, encodePartBaseKV, optField,
        decodePart, getReq, getOpt, lookupKV, decodeStr, removeKey,
        decodeTextPart, decodePartBase]
    | some mm =>
      have hs : SortedKeys mm := h
      simp [encodePart, encodeTextPartKV, encodePartBaseKV, optField,
        decodePart, getReq, getOpt, lookupKV, decodeStr, removeKey,
        decodeTextPart, decodePartBase, isNull, encodeStrMap, decodeStrMap,
        decodeStrMap_encode hs]
  | .File ⟨⟨md⟩, file⟩, h => by
    have hfile : decodeFileWith (encodeFileWith file) = some file := by
      cases file with
      | Bytes f =>
        obtain ⟨⟨name, mime⟩, bytes⟩ := f
        cases name <;> cases mime <;>
          simp [encodeFileWith, encodeFileWithBytesKV, encodeFileBaseKV,
            optField, decodeFileWith, decodeFileWithBytes, decodeFileBase,
            getReq, getOpt, lookupKV, decodeStr, isNull]
      | Uri f =>
        obtain ⟨⟨name, mime⟩, uri⟩ := f
        cases name <;> cases mime <;>
          simp [encodeFileWith, encodeFileWithUriKV, encodeFileBaseKV,
            optField, decodeFileWith, decodeFileWithBytes, decodeFileWithUri,
            decodeFileBase, getReq, getOpt, lookupKV, decodeStr, isNull]
    cases md with
    | none =>
      simp [encodePart, encodeFilePartKV, encodePartBaseKV, optField,
        decodePart, getReq, getOpt, lookupKV, decodeStr, removeKey,
        decodeFilePart, decodePartBase, hfile]
    | some mm =>
      have hs : SortedKeys mm := h
      simp [encodePart, encodeFilePartKV, encodePartBaseKV, optField,
        decodePart, getReq, getOpt, lookupKV, decodeStr, removeKey,
        decodeFilePart, decodePartBase, isNull, encodeStrMap, decodeStrMap,
        decodeStrMap_encode hs, hfile]
  | .Data ⟨⟨md⟩, data⟩, h => by
    have hsd : SortedKeys data := h.2
    cases md with
    | none =>
      simp [encodePart, encodeDataPartKV, encodePartBaseKV, optField,
        decodePart, getReq, getOpt, lookupKV, decodeStr, removeKey,
        decodeDataPart, decodePartBase, isNull, encodeStrMap, decodeStrMap,
        decodeStrMap_encode hsd]
    | some mm =>
      have hs : SortedKeys mm := h.1
      simp [encodePart, encodeDataPartKV, encodePartBaseKV, optField,
        decodePart, getReq, getOpt, lookupKV, decodeStr, removeKey,
        decodeDataPart, decodePartBase, isNull, encodeStrMap, decodeStrMap,
        decodeStrMap_encode hs, decodeStrMap_encode hsd]

/-- Round-trip for `Message` on well-formed values. -/
theorem decodeMessage_encodeMessage (m : Message) (h : WFMessage m) :
    decodeMessage (encodeMessage m) = some m := by
  obtain ⟨role, parts, metadata, ext, refs, mid, tid, cid, kind⟩ := m
  obtain ⟨hmd, hparts⟩ := h
  have hp : decodeElems decodePart (parts.map encodePart) = some parts :=
    decodeElems_map_roundtrip _ _ _
      (fun p hp => decodePart_encodePart p (hparts p hp))
  cases metadata with
  | none =>
    cases ext <;> cases refs <;> cases tid <;> cases cid <;>
      simp [encodeMessage, decodeMessage, getReq, getOpt, lookupKV, optField,
        decodeStr, decodeList, isNull, fromWire_toWire_role, hp,
        decodeElems_map_roundtrip Json.str decodeStr _ (fun s _ => rfl)]
  | some mm =>
    have hs : SortedKeys mm := hmd
    cases ext <;> cases refs <;> cases tid <;> cases cid <;>
      simp [encodeMessage, decodeMessage, getReq, getOpt, lookupKV, optField,
        decodeStr, decodeList, isNull, fromWire_toWire_role, hp,
        encodeStrMap, decodeStrMap, decodeStrMap_encode hs,
        decodeElems_map_roundtrip Json.str decodeStr _ (fun s _ => rfl)]

/-- Round-trip for the wire-error record, for every code representable in the
source's `i32` field. -/
theorem decodeJsonRpcError_encode (e : Jsonrpc.JsonRpcError)
    (hc : -2147483648 ≤ e.code ∧ e.code < 2147483648) :
    Jsonrpc.decodeJsonRpcError (Jsonrpc.encodeJsonRpcError e) = some e := by
  obtain ⟨code, message, data⟩ := e
  cases data <;>
    simp_all [Jsonrpc.encodeJsonRpcError, Jsonrpc.decodeJsonRpcError, getReq,
      getOpt, lookupKV, optField, decodeStr, decodeI32, isNull]

/-- Round-trip for the untagged response payload, given an inverse pair for
the `result` type. -/
theorem decodeJsonRpcPayloadKV_encode (encT : τ → Json)
    (decT : Json → Option τ) (p : Jsonrpc.JsonRpcPayload τ)
    (hT : ∀ t, decT (encT t) = some t) (hpc : WFPayloadCode p) :
    Jsonrpc.decodeJsonRpcPayloadKV decT (Jsonrpc.encodeJsonRpcPayloadKV encT p)
      = some p := by
  cases p with
  | Success t =>
    simp [Jsonrpc.encodeJsonRpcPayloadKV, Jsonrpc.decodeJsonRpcPayloadKV,
      lookupKV, hT]
  | Error e =>
    simp [Jsonrpc.encodeJsonRpcPayloadKV, Jsonrpc.decodeJsonRpcPayloadKV,
      lookupKV, decodeJsonRpcError_encode e hpc]

/-- Round-trip for the response envelope: holds for every constructible
response whose `id` is not the explicit JSON-null id. -/
theorem decodeJsonRpcResponse_encode (encT : τ → Json)
    (decT : Json → Option τ) (r : Jsonrpc.JsonRpcResponse τ)
    (hT : ∀ t, decT (encT t) = some t) (hid : WFId r.id)
    (hpc : WFPayloadCode r.payload) (hnn : r.id ≠ some .Null) :
    Jsonrpc.decodeJsonRpcResponse decT (Jsonrpc.encodeJsonRpcResponse encT r)
      = some r := by
  obtain ⟨jsonrpc, id, payload⟩ := r
  have hpay := decodeJsonRpcPayloadKV_encode encT decT payload hT hpc
  have hpayKeys : ∀ k, ¬ k ∈ (["result", "error"] : List String) →
      lookupKV (Jsonrpc.encodeJsonRpcPayloadKV encT payload) k = none := by
    intro k hk
    simp only [List.mem_cons, List.mem_singleton, not_or] at hk
    cases payload <;>
      simp [Jsonrpc.encodeJsonRpcPayloadKV, lookupKV, hk.1, hk.2.1]
  have hremove : ∀ k, ¬ k ∈ (["result", "error"] : List String) →
      removeKey (Jsonrpc.encodeJsonRpcPayloadKV encT payload) k
        = Jsonrpc.encodeJsonRpcPayloadKV encT payload := by
    intro k hk
    simp only [List.mem_cons, List.mem_singleton, not_or] at hk
    obtain ⟨h1, h2, -⟩ := hk
    cases payload <;>
      simp [Jsonrpc.encodeJsonRpcPayloadKV, removeKey, Ne.symm h1, Ne.symm h2]
  cases id with
  | none =>
    simp [Jsonrpc.encodeJsonRpcResponse, Jsonrpc.decodeJsonRpcResponse,
      getReq, getOpt, lookupKV, optField, decodeStr, removeKey,
      hpayKeys "id" (by decide), hpayKeys "jsonrpc" (by decide),
      hremove "id" (by decide), hremove "jsonrpc" (by decide), hpay]
  | some i =>
    cases i with
    | String s =>
      simp [Jsonrpc.encodeJsonRpcResponse, Jsonrpc.decodeJsonRpcResponse,
        getReq, getOpt, lookupKV, optField, decodeStr, removeKey,
        Jsonrpc.encodeJsonRpcId, Jsonrpc.decodeJsonRpcId, isNull,
        hremove "id" (by decide), hremove "jsonrpc" (by decide), hpay]
    | Number n =>
      have hb : -9223372036854775808 ≤ n ∧ n < 9223372036854775808 := hid
      simp [Jsonrpc.encodeJsonRpcResponse, Jsonrpc.decodeJsonRpcResponse,
        getReq, getOpt, lookupKV, optField, decodeStr, removeKey,
        Jsonrpc.encodeJsonRpcId, Jsonrpc.decodeJsonRpcId, decodeI64, isNull,
        hb.1, hb.2, hremove "id" (by decide), hremove "jsonrpc" (by decide),
        hpay]
    | Null => exact absurd rfl hnn

/-- Left inverse of the Error Registry's code assignment: decoding any
registered kind's code yields that kind (shared helper for C7). -/
theorem fromI64_error_code (k : Errors.JsonRpcError) :
    Errors.JsonRpcError.fromI64 k.error_code = k := by
  cases k <;> rfl

/-- C1, counterexample: the round-trip `decode(encode(v)) == v` fails for the
constructible `JsonRpcResponse` whose `id` is `Some(JsonRpcId::Null)` — the
skip-if-none `id` field serializes it as JSON `null`, which `Option`
deserialization maps back to `None`, not to `Some(Null)`. -/
theorem C1_counterexample :
    Jsonrpc.decodeJsonRpcResponse some
        (Jsonrpc.encodeJsonRpcResponse (fun j => j)
          ⟨"2.0", some .Null, .Success Json.null⟩)
      ≠ some (⟨"2.0", some .Null, .Success Json.null⟩ :
          Jsonrpc.JsonRpcResponse Json) := by
  intro hEq
  have h1 : Jsonrpc.decodeJsonRpcResponse some
      (Jsonrpc.encodeJsonRpcResponse (fun j => j)
        (⟨"2.0", some .Null, .Success Json.null⟩ :
          Jsonrpc.JsonRpcResponse Json))
      = some ⟨"2.0", none, .Success Json.null⟩ := rfl
  rw [h1] at hEq
  simp [Jsonrpc.JsonRpcResponse.mk.injEq] at hEq

/-- C1 (amended): `decode(encode(v)) == v` holds for every well-formed
`Message` value, and for every well-formed `JsonRpcResponse` value whose `id`
field is not `Some(JsonRpcId::Null)` (the sole failing shape); well-formedness
is the constructibility invariant of the Rust source (sorted `BTreeMap`s,
`i64`-ranged numeric ids, `i32`-ranged error codes). -/
theorem C1_roundtrip :
    (∀ m : Message, WFMessage m → decodeMessage (encodeMessage m) = some m) ∧
    (∀ (τ : Type) (encT : τ → Json) (decT : Json → Option τ)
      (r : Jsonrpc.JsonRpcResponse τ),
      (∀ t, decT (encT t) = some t) → WFId r.id →
      WFPayloadCode r.payload → r.id ≠ some .Null →
      Jsonrpc.decodeJsonRpcResponse decT
        (Jsonrpc.encodeJsonRpcResponse encT r) = some r) :=
  ⟨decodeMessage_encodeMessage,
    fun _ encT decT r hT hid hpc hnn =>
      decodeJsonRpcResponse_encode encT decT r hT hid hpc hnn⟩

/-- C1 witness: the round-trip theorem applied to a concrete message carrying
every field shape, and to a concrete error response with a numeric id. -/
theorem C1_roundtrip_witness :
    decodeMessage (encodeMessage
        ⟨.User, [.Text ⟨⟨some [("a", "b")]⟩, "hi"⟩], some [("k", "v")],
          some ["x"], none, "m1", some "t1", none, "message"⟩)
      = some ⟨.User, [.Text ⟨⟨some [("a", "b")]⟩, "hi"⟩], some [("k", "v")],
          some ["x"], none, "m1", some "t1", none, "message"⟩ ∧
    Jsonrpc.decodeJsonRpcResponse some
        (Jsonrpc.encodeJsonRpcResponse (fun j => j)
          ⟨"2.0", some (.Number 7), .Error ⟨-32700, "oops", none⟩⟩)
      = some (⟨"2.0", some (.Number 7), .Error ⟨-32700, "oops", none⟩⟩ :
          Jsonrpc.JsonRpcResponse Json) :=
  ⟨C1_roundtrip.1 _ (by decide),
    C1_roundtrip.2 Json (fun j => j) some _ (fun t => rfl) (by decide)
      (by decide) (by decide)⟩

/-- C2, counterexample: encoding a `MessageSendParams` whose optional
`configuration` is absent emits the key with an explicit JSON `null` (the
field has no `skip_serializing_if` attribute), contradicting the claim that
an absent optional field's key is never emitted with a null value. -/
theorem C2_counterexample :
    Json.lookupKV
        (Jsonrpc.encodeMessageSendParams ⟨Message.new, none, none⟩).fields
        "configuration"
      = some Json.null := rfl

/-- C2 (amended): optional fields declared with `skip_serializing_if` (for
example `Message`'s `taskId` and `metadata`) are omitted entirely when
absent, but `MessageSendParams.configuration` / `.metadata` and
`JsonRpcRequest.params` are emitted as explicit `null` when absent; on
decode, a missing key or a present-but-null key is uniformly treated as the
field being absent, never as an error. -/
theorem C2_optional_fields :
    (∀ m : Message, m.task_id = none →
      Json.lookupKV (encodeMessage m).fields "taskId" = none) ∧
    (∀ m : Message, m.metadata = none →
      Json.lookupKV (encodeMessage m).fields "metadata" = none) ∧
    (∀ p : Jsonrpc.MessageSendParams, p.configuration = none →
      Json.lookupKV (Jsonrpc.encodeMessageSendParams p).fields "configuration"
        = some Json.null) ∧
    (∀ r : Jsonrpc.JsonRpcRequest, r.params = none →
      Json.lookupKV (Jsonrpc.encodeJsonRpcRequest r).fields "params"
        = some Json.null) ∧
    (∀ (α : Type) (kvs : List (String × Json)) (k : String)
      (dec : Json → Option α), Json.lookupKV kvs k = none →
      getOpt kvs k dec = some none) ∧
    (∀ (α : Type) (kvs : List (String × Json)) (k : String)
      (dec : Json → Option α), Json.lookupKV kvs k = some Json.null →
      getOpt kvs k dec = some none) ∧
    (Jsonrpc.decodeMessageSendParams
        (Json.obj [("message", encodeMessage Message.new)])
      = some ⟨Message.new, none, none⟩) ∧
    (Jsonrpc.decodeMessageSendParams
        (Json.obj [("message", encodeMessage Message.new),
          ("configuration", Json.null), ("metadata", Json.null)])
      = some ⟨Message.new, none, none⟩) := by
  refine ⟨?_, ?_, ?_, ?_, ?_, ?_, rfl, rfl⟩
  · intro m h
    obtain ⟨role, parts, metadata, ext, refs, mid, tid, cid, kind⟩ := m
    cases h
    cases metadata <;> cases ext <;> cases refs <;> cases cid <;>
      simp [encodeMessage, optField, Json.fields, lookupKV]
  · intro m h
    obtain ⟨role, parts, metadata, ext, refs, mid, tid, cid, kind⟩ := m
    cases h
    cases ext <;> cases refs <;> cases tid <;> cases cid <;>
      simp [encodeMessage, optField, Json.fields, lookupKV]
  · intro p h
    obtain ⟨msg, cfg, md⟩ := p
    cases h
    simp [Jsonrpc.encodeMessageSendParams, nullableField, Json.fields,
      lookupKV]
  · intro r h
    obtain ⟨j, mth, params, id⟩ := r
    cases h
    simp [Jsonrpc.encodeJsonRpcRequest, nullableField, Json.fields, lookupKV]
  · intro α kvs k dec h
    simp [getOpt, h]
  · intro α kvs k dec h
    simp [getOpt, h, isNull]

/-- C2 witness: the amended theorem applied to concrete records — a message
with `taskId` absent omits the key; concrete params with `configuration`
absent emit null; a missing and a null key both decode to absent. -/
theorem C2_optional_fields_witness :
    Json.lookupKV (encodeMessage Message.new).fields "taskId" = none ∧
    Json.lookupKV
        (Jsonrpc.encodeMessageSendParams ⟨Message.new, none, some []⟩).fields
        "configuration" = some Json.null ∧
    getOpt [("other", Json.num 1)] "configuration" decodeStr = some none ∧
    getOpt [("configuration", Json.null)] "configuration" decodeStr
      = some none :=
  ⟨C2_optional_fields.1 Message.new rfl,
    C2_optional_fields.2.2.1 ⟨Message.new, none, some []⟩ rfl,
    C2_optional_fields.2.2.2.2.1 String [("other", Json.num 1)]
      "configuration" decodeStr rfl,
    C2_optional_fields.2.2.2.2.2.1 String [("configuration", Json.null)]
      "configuration" decodeStr rfl⟩

/-- C3, counterexample: decoding the unrecognized task-state token
`"frobnicated"` does not yield `Unknown` — the derived deserializer has no
`#[serde(other)]` fallback, so it is an unknown-variant hard error. -/
theorem C3_counterexample :
    TaskState.fromWire "frobnicated" ≠ some TaskState.Unknown := by decide

/-- C3 (amended): only `TransportProtocol` decoding is total with the
`JsonRpc` fallback (`"SOAP"` included); `TaskState` and `MessageRole`
decoding rejects every unrecognized token as a hard error; encoding is
exhaustive and maps each value to exactly one token, injectively. -/
theorem C3_enum_decoding :
    (∀ s : String, ¬ s ∈ (["JSONRPC", "GRPC", "HTTP+JSON"] : List String) →
      TransportProtocol.fromStr s = .JsonRpc) ∧
    TransportProtocol.fromStr "SOAP" = .JsonRpc ∧
    TaskState.fromWire "frobnicated" = none ∧
    MessageRole.fromWire "moderator" = none ∧
    (∀ t : TransportProtocol, TransportProtocol.fromStr t.asStr = t) ∧
    (∀ t : TaskState, TaskState.fromWire t.toWire = some t) ∧
    (∀ r : MessageRole, MessageRole.fromWire r.toWire = some r) ∧
    (∀ a b : TaskState, a.toWire = b.toWire → a = b) := by
  refine ⟨?_, by decide, by decide, by decide, ?_, fromWire_toWire_state,
    fromWire_toWire_role, ?_⟩
  · intro s h
    simp only [List.mem_cons, List.mem_singleton, not_or] at h
    simp [TransportProtocol.fromStr, TransportProtocol.asStr, h.1, h.2.1,
      h.2.2]
  · intro t
    cases t <;> rfl
  · intro a b hab
    cases a <;> cases b <;> simp_all [TaskState.toWire]

/-- C3 witness: the amended theorem applied to the concrete token `"SOAP"`
and to concrete task states. -/
theorem C3_enum_decoding_witness :
    TransportProtocol.fromStr "SOAP" = .JsonRpc ∧
    TaskState.fromWire TaskState.Completed.toWire = some .Completed ∧
    TaskState.AuthRequired = TaskState.AuthRequired :=
  ⟨C3_enum_decoding.1 "SOAP" (by decide),
    C3_enum_decoding.2.2.2.2.2.1 .Completed,
    C3_enum_decoding.2.2.2.2.2.2.2 .AuthRequired .AuthRequired (by decide)⟩

/-- C4: untagged-union decoding tries variants in declared order and commits
to the first whose required fields are present (with well-typed values): a
`bytes` key selects `Bytes` even when `uri` is also present, a sole `uri`
key selects `Uri`, a `result` key selects `Success` before `Error` is tried,
and decoding fails when no variant's required field is present. -/
theorem C4_untagged_order :
    (∀ (kvs : List (String × Json)) (b : String),
      Json.lookupKV kvs "bytes" = some (Json.str b) →
      (getOpt kvs "name" decodeStr).isSome →
      (getOpt kvs "mime_type" decodeStr).isSome →
      ∃ fb : FileWithBytes,
        decodeFileWith (Json.obj kvs) = some (.Bytes fb) ∧ fb.bytes = b) ∧
    (∀ (kvs : List (String × Json)) (u : String),
      Json.lookupKV kvs "bytes" = none →
      Json.lookupKV kvs "uri" = some (Json.str u) →
      (getOpt kvs "name" decodeStr).isSome →
      (getOpt kvs "mime_type" decodeStr).isSome →
      ∃ fu : FileWithUri,
        decodeFileWith (Json.obj kvs) = some (.Uri fu) ∧ fu.uri = u) ∧
    (∀ kvs : List (String × Json), Json.lookupKV kvs "bytes" = none →
      Json.lookupKV kvs "uri" = none →
      decodeFileWith (Json.obj kvs) = none) ∧
    (∀ (τ : Type) (decT : Json → Option τ) (kvs : List (String × Json))
      (v : Json) (t : τ), Json.lookupKV kvs "result" = some v →
      decT v = some t →
      Jsonrpc.decodeJsonRpcPayloadKV decT kvs = some (.Success t)) ∧
    (∀ (τ : Type) (decT : Json → Option τ) (kvs : List (String × Json)),
      Json.lookupKV kvs "result" = none →
      Json.lookupKV kvs "error" = none →
      Jsonrpc.decodeJsonRpcPayloadKV decT kvs = none) ∧
    (∀ (τ : Type) (decT : Json → Option τ) (kvs : List (String × Json))
      (ev : Json) (er : Jsonrpc.JsonRpcError),
      Json.lookupKV kvs "result" = none →
      Json.lookupKV kvs "error" = some ev →
      Jsonrpc.decodeJsonRpcError ev = some er →
      Jsonrpc.decodeJsonRpcPayloadKV decT kvs = some (.Error er)) := by
  refine ⟨?_, ?_, ?_, ?_, ?_, ?_⟩
  · intro kvs b hb hn hm
    obtain ⟨n0, hn0⟩ := Option.isSome_iff_exists.mp hn
    obtain ⟨m0, hm0⟩ := Option.isSome_iff_exists.mp hm
    refine ⟨⟨⟨n0, m0⟩, b⟩, ?_, rfl⟩
    simp [decodeFileWith, decodeFileWithBytes, decodeFileBase, getReq, hb,
      hn0, hm0, decodeStr]
  · intro kvs u hb hu hn hm
    obtain ⟨n0, hn0⟩ := Option.isSome_iff_exists.mp hn
    obtain ⟨m0, hm0⟩ := Option.isSome_iff_exists.mp hm
    refine ⟨⟨⟨n0, m0⟩, u⟩, ?_, rfl⟩
    simp [decodeFileWith, decodeFileWithBytes, decodeFileWithUri,
      decodeFileBase, getReq, hb, hu, hn0, hm0, decodeStr]
  · intro kvs hb hu
    cases hbase : decodeFileBase kvs <;>
      simp [decodeFileWith, decodeFileWithBytes, decodeFileWithUri, hbase,
        getReq, hb, hu]
  · intro τ decT kvs v t hv ht
    simp [Jsonrpc.decodeJsonRpcPayloadKV, hv, ht]
  · intro τ decT kvs h1 h2
    simp [Jsonrpc.decodeJsonRpcPayloadKV, h1, h2]
  · intro τ decT kvs ev er h1 h2 h3
    simp [Jsonrpc.decodeJsonRpcPayloadKV, h1, h2, h3]

/-- C4 witness: the trial-order theorem applied to the claim's concrete
objects — `bytes` plus spurious `uri` decodes as `Bytes`, a sole `uri`
decodes as `Uri`, an empty object fails, and a `result` key selects
`Success` even with an `error` key also present. -/
theorem C4_untagged_order_witness :
    (∃ fb : FileWithBytes,
      decodeFileWith (Json.obj [("bytes", Json.str "QQ=="),
          ("uri", Json.str "http://x")]) = some (.Bytes fb) ∧
        fb.bytes = "QQ==") ∧
    (∃ fu : FileWithUri,
      decodeFileWith (Json.obj [("uri", Json.str "http://x")])
          = some (.Uri fu) ∧ fu.uri = "http://x") ∧
    decodeFileWith (Json.obj []) = none ∧
    Jsonrpc.decodeJsonRpcPayloadKV some
        [("result", Json.num 1), ("error", Json.str "spurious")]
      = some (.Success (Json.num 1)) :=
  ⟨C4_untagged_order.1 [("bytes", Json.str "QQ=="),
      ("uri", Json.str "http://x")] "QQ==" rfl rfl rfl,
    C4_untagged_order.2.1 [("uri", Json.str "http://x")] "http://x" rfl rfl
      rfl rfl,
    C4_untagged_order.2.2.1 [] rfl rfl,
    C4_untagged_order.2.2.2.1 Json some
      [("result", Json.num 1), ("error", Json.str "spurious")]
      (Json.num 1) (Json.num 1) rfl rfl⟩

/-- C5: tagged-union decoding selects the variant named by the
discriminator — the claim's `apiKey` object yields the API-key variant and a
tagged `text` part yields the text variant — while any discriminator outside
the known set is a hard decode failure for both `SecurityScheme` (`type`)
and `Part` (`kind`). -/
theorem C5_tagged_unions :
    decodeSecurityScheme (Json.obj [("type", Json.str "apiKey"),
        ("name", Json.str "X-Key"), ("in", Json.str "header")])
      = some (.ApiKey "X-Key" "header" none []) ∧
    decodePart (Json.obj [("kind", Json.str "text"),
        ("text", Json.str "hello")])
      = some (.Text ⟨⟨none⟩, "hello"⟩) ∧
    (∀ (kvs : List (String × Json)) (s : String),
      Json.lookupKV kvs "type" = some (Json.str s) →
      ¬ s ∈ (["apiKey", "http", "mutualTLS", "oAuth2",
        "openIdConnect"] : List String) →
      decodeSecurityScheme (Json.obj kvs) = none) ∧
    (∀ (kvs : List (String × Json)) (s : String),
      Json.lookupKV kvs "kind" = some (Json.str s) →
      ¬ s ∈ (["text", "file", "data"] : List String) →
      decodePart (Json.obj kvs) = none) := by
  refine ⟨rfl, rfl, ?_, ?_⟩
  · intro kvs s h1 h2
    simp only [List.mem_cons, List.mem_singleton, not_or] at h2
    simp [decodeSecurityScheme, getReq, h1, decodeStr, h2.1, h2.2.1,
      h2.2.2.1, h2.2.2.2.1, h2.2.2.2.2]
  · intro kvs s h1 h2
    simp only [List.mem_cons, List.mem_singleton, not_or] at h2
    simp [decodePart, getReq, h1, decodeStr, h2.1, h2.2.1, h2.2.2]

/-- C5 witness: the unknown-discriminator components applied to the claim's
concrete `bogus` objects. -/
theorem C5_tagged_unions_witness :
    decodeSecurityScheme (Json.obj [("type", Json.str "bogus")]) = none ∧
    decodePart (Json.obj [("kind", Json.str "bogus")]) = none :=
  ⟨C5_tagged_unions.2.2.1 [("type", Json.str "bogus")] "bogus" rfl
      (by decide),
    C5_tagged_unions.2.2.2 [("kind", Json.str "bogus")] "bogus" rfl
      (by decide)⟩

/-- C6: encoding the `OAuth2` variant emits the discriminator `"oAuth2"` —
serde's `camelCase` variant rename lowercases only the first character — not
the claimed (and OpenAPI-standard) `"oauth2"`, which is outside the claimed
discriminator set; consequently the standard token `"oauth2"` does not
decode at all. -/
theorem C6_oauth2_discriminator :
    Json.lookupKV
        (encodeSecurityScheme (.OAuth2 OAuthFlows.default none none [])).fields
        "type" = some (Json.str "oAuth2") ∧
    ¬ "oAuth2" ∈ (["apiKey", "http", "mutualTLS", "oauth2",
      "openIdConnect"] : List String) ∧
    decodeSecurityScheme (Json.obj [("type", Json.str "oauth2"),
        ("flows", Json.obj [])]) = none ∧
    decodeSecurityScheme
        (encodeSecurityScheme (.OAuth2 OAuthFlows.default none none []))
      = some (.OAuth2 OAuthFlows.default none none []) :=
  ⟨rfl, by decide, rfl, rfl⟩

/-- C7: the Error Registry's `error_code` is total and injective over the
thirteen kinds, `From<i64>` is total and maps every code outside the
registered code set to the `UnknownErrorEncountered` sentinel (in particular
at `-1`), `kind_of(code_of(k)) == k` for every registered kind, and `foo` is
the synonym for the `From<i64>` conversion. -/
theorem C7_error_registry :
    (∀ k : Errors.JsonRpcError,
      Errors.JsonRpcError.fromI64 k.error_code = k) ∧
    (∀ a b : Errors.JsonRpcError, a.error_code = b.error_code → a = b) ∧
    (∀ v : Int, (∀ k : Errors.JsonRpcError, v ≠ k.error_code) →
      Errors.JsonRpcError.fromI64 v = .UnknownErrorEncountered) ∧
    Errors.JsonRpcError.fromI64 (-1) = .UnknownErrorEncountered ∧
    (∀ v : Int, Errors.JsonRpcError.foo v = Errors.JsonRpcError.fromI64 v) := by
  refine ⟨fromI64_error_code, ?_, ?_, by decide, fun v => rfl⟩
  · intro a b h
    calc a = Errors.JsonRpcError.fromI64 a.error_code :=
          (fromI64_error_code a).symm
      _ = Errors.JsonRpcError.fromI64 b.error_code := by rw [h]
      _ = b := fromI64_error_code b
  · intro v h
    simp [Errors.JsonRpcError.fromI64, h .ParseError, h .InvalidRequest,
      h .MethodNotFound, h .InvalidParams, h .InternalError,
      h .TaskNotFoundError, h .TaskNotCancelableError,
      h .PushNotificationNotSupportedError, h .UnsupportedOperationError,
      h .ContentTypeNotSupportedError, h .InvalidAgentResponseError,
      h .AuthenticatedExtendedCardNotConfiguredError]

/-- C7 witness: the registry theorem applied to concrete kinds, with the
injectivity hypothesis discharged at a concrete pair and the universal
fallback applied to the concrete unregistered codes `-5` and `-1`. -/
theorem C7_error_registry_witness :
    Errors.JsonRpcError.fromI64
        (Errors.JsonRpcError.error_code .TaskNotFoundError)
      = .TaskNotFoundError ∧
    Errors.JsonRpcError.ParseError = Errors.JsonRpcError.ParseError ∧
    Errors.JsonRpcError.fromI64 (-5) = .UnknownErrorEncountered ∧
    Errors.JsonRpcError.fromI64 (-1) = .UnknownErrorEncountered :=
  ⟨C7_error_registry.1 .TaskNotFoundError,
    C7_error_registry.2.1 .ParseError .ParseError (by decide),
    C7_error_registry.2.2.1 (-5) (fun k => by cases k <;> decide),
    C7_error_registry.2.2.1 (-1) (fun k => by cases k <;> decide)⟩

/-- C8: encoding any `ListTasksResult` always emits the `nextPageToken` key,
bound to the record's string value — in particular to `""` when there are no
further pages — and the emitted value is a JSON string, never null and never
omitted. -/
theorem C8_pagination_sentinel :
    ∀ (τ : Type) (encTask : τ → Json) (r : Jsonrpc.ListTasksResult τ),
      Json.lookupKV (Jsonrpc.encodeListTasksResult encTask r).fields
          "nextPageToken" = some (Json.str r.next_page_token) ∧
      Json.str r.next_page_token ≠ Json.null := by
  intro τ encTask r
  exact ⟨rfl, fun h => Json.noConfusion h⟩

/-- C9, counterexample: the wire-error record's `code` field is declared
`i32` in the source, so the i64 value `2147483648 = 2^31` fails to decode —
refuting the claim that the field carries the full i64 range. -/
theorem C9_counterexample :
    Jsonrpc.decodeJsonRpcError (Json.obj [("code", Json.num 2147483648),
        ("message", Json.str "boom")]) = none := rfl

/-- C9 (amended): a wire error object round-trips its code exactly for every
code in the `i32` range `[-2^31, 2^31)` — the range of the source's `code`
field — decoding successfully and re-encoding the same code. -/
theorem C9_code_i32_range :
    ∀ (c : Int) (msg : String), -2147483648 ≤ c → c < 2147483648 →
      Jsonrpc.decodeJsonRpcError (Json.obj [("code", Json.num c),
          ("message", Json.str msg)]) = some ⟨c, msg, none⟩ ∧
      Json.lookupKV (Jsonrpc.encodeJsonRpcError ⟨c, msg, none⟩).fields "code"
        = some (Json.num c) := by
  intro c msg h1 h2
  refine ⟨?_, rfl⟩
  simp [Jsonrpc.decodeJsonRpcError, getReq, getOpt, lookupKV, decodeI32,
    decodeStr, h1, h2]

/-- C9 witness: the amended theorem applied to the standard parse-error code
`-32700`. -/
theorem C9_code_i32_range_witness :
    Jsonrpc.decodeJsonRpcError (Json.obj [("code", Json.num (-32700)),
        ("message", Json.str "parse")]) = some ⟨-32700, "parse", none⟩ ∧
    Json.lookupKV
        (Jsonrpc.encodeJsonRpcError ⟨-32700, "parse", none⟩).fields "code"
      = some (Json.num (-32700)) :=
  C9_code_i32_range (-32700) "parse" (by decide) (by decide)

/-- C10: encoding a `JsonRpcResponse` whose `id` is `None` omits the `id`
key entirely (the field carries `skip_serializing_if`), and decoding a
response object with no `id` key succeeds with `id = None`. -/
theorem C10_response_id_omission :
    (∀ (τ : Type) (encT : τ → Json) (r : Jsonrpc.JsonRpcResponse τ),
      r.id = none →
      Json.lookupKV (Jsonrpc.encodeJsonRpcResponse encT r).fields "id"
        = none) ∧
    Jsonrpc.decodeJsonRpcResponse some
        (Json.obj [("jsonrpc", Json.str "2.0"), ("result", Json.num 7)])
      = some (⟨"2.0", none, .Success (Json.num 7)⟩ :
          Jsonrpc.JsonRpcResponse Json) := by
  refine ⟨?_, rfl⟩
  intro τ encT r h
  obtain ⟨jsonrpc, id, payload⟩ := r
  cases h
  cases payload <;>
    simp [Jsonrpc.encodeJsonRpcResponse, Jsonrpc.encodeJsonRpcPayloadKV,
      optField, Json.fields, lookupKV]

/-- C10 witness: the omission component applied to a concrete id-less
response. -/
theorem C10_response_id_omission_witness :
    Json.lookupKV
        (Jsonrpc.encodeJsonRpcResponse (fun j => j)
          (⟨"2.0", none, .Success Json.null⟩ :
            Jsonrpc.JsonRpcResponse Json)).fields "id" = none :=
  C10_response_id_omission.1 Json (fun j => j)
    ⟨"2.0", none, .Success Json.null⟩ rfl

end A2a
